import Mathlib

/-
Shallow embedding of src/analysis/portfolio_analysis.py.

Modelling conventions:
- Python floats are modelled as exact rationals (Rat); all timing and score
  arithmetic in the script is plain division and comparison, so Rat is faithful
  up to floating-point rounding, which no claim depends on.
- A JSON portfolio record is modelled by the structure PortfolioData whose
  optional fields model dict.get: a field that may be absent is an Option.
  The Stocks list is modelled as a total field (no claim concerns its absence).
- Python exceptions are modelled with Except PyError: KeyError from a bare
  dict subscript, and UnboundLocalError from reading a never-assigned local.
- Console output and saved chart files are modelled by the data carried in the
  result constructors; rendering calls themselves have no modelled effect.
-/

/-- One entry of the Stocks list of a portfolio record: a ticker and a weight. -/
structure Stock where
  ticker : String
  weight : Rat
  deriving DecidableEq, Repr

/-- A parsed optimal_portfolio_*.json record. Optional fields model dict.get
on keys SharpeRatio, ExecutionMode, TimeElapsedMs, Timestamp. -/
structure PortfolioData where
  sharpe : Option Rat
  execMode : Option String
  timeElapsedMs : Option Rat
  timestamp : Option String
  stocks : List Stock
  deriving DecidableEq, Repr

/-- The Python exceptions the script can raise in the modelled paths. -/
inductive PyError where
  | keyError
  | unboundLocal
  deriving DecidableEq, Repr

instance {ε α : Type} [DecidableEq ε] [DecidableEq α] : DecidableEq (Except ε α) :=
  fun x y =>
    match x, y with
    | Except.ok a, Except.ok b =>
        if h : a = b then isTrue (by rw [h]) else isFalse (by simp [h])
    | Except.error a, Except.error b =>
        if h : a = b then isTrue (by rw [h]) else isFalse (by simp [h])
    | Except.ok _, Except.error _ => isFalse (by simp)
    | Except.error _, Except.ok _ => isFalse (by simp)

/-- The loop state of find_best_portfolio: best_sharpe (none models the
initial -inf), best_portfolio (initialised to None), and best_file, where
none models the variable never having been assigned. -/
structure FindState where
  bestSharpe : Option Rat
  bestPortfolio : Option PortfolioData
  bestFile : Option String
  deriving DecidableEq, Repr

/-- The comparison data.get(SharpeRatio, 0) > best_sharpe: every rational
exceeds the initial -inf. -/
def gtBest (x : Rat) : Option Rat → Bool
  | none => true
  | some b => decide (b < x)

/-- The score the scan compares on: data.get(SharpeRatio, 0), the SharpeRatio
field of a (filename, record) pair, defaulting to 0 when absent. -/
def score (e : String × PortfolioData) : Rat :=
  e.2.sharpe.getD 0

/-- One iteration of the scan loop in find_best_portfolio. When the comparison
succeeds, the update reads data[SharpeRatio] with a bare subscript, which
raises KeyError when the key is absent. -/
def findStep (st : FindState) (e : String × PortfolioData) : Except PyError FindState :=
  if gtBest (score e) st.bestSharpe then
    match e.2.sharpe with
    | none => Except.error PyError.keyError
    | some s => Except.ok ⟨some s, some e.2, some e.1⟩
  else Except.ok st

/-- find_best_portfolio: scans the (filename, record) pairs produced by the
glob over optimal_portfolio_*.json, then prints best_file and best_sharpe and
returns best_portfolio. Reading best_file raises UnboundLocalError when the
loop never assigned it. On success the result carries the returned record,
the printed filename and the printed score. -/
def find_best_portfolio (files : List (String × PortfolioData)) :
    Except PyError (Option PortfolioData × String × Option Rat) := do
  let st ← List.foldlM findStep ⟨none, none, none⟩ files
  match st.bestFile with
  | none => Except.error PyError.unboundLocal
  | some f => Except.ok (st.bestPortfolio, f, st.bestSharpe)

/-- A record with no SharpeRatio field, as parsed from a result file that
lacks the scoring key. -/
def noScoreData : PortfolioData :=
  ⟨none, none, none, none, []⟩

/-- The loop state as determined by the current best (filename, record) pair,
once some file has been accepted: best_sharpe holds the value stored from
data[SharpeRatio], which equals the compared score because the key is present. -/
def mkState (e : String × PortfolioData) : FindState :=
  ⟨some (score e), some e.2, some e.1⟩

/-- Pure description of the rest of the scan once a best pair is held:
a later pair replaces the best exactly when its score is strictly larger. -/
def bestAux (acc : String × PortfolioData) : List (String × PortfolioData) → String × PortfolioData
  | [] => acc
  | e :: l => if score acc < score e then bestAux e l else bestAux acc l

theorem except_bind_ok {ε α β : Type} (a : α) (f : α → Except ε β) :
    (Except.ok a : Except ε α) >>= f = f a := rfl

theorem foldlM_findStep (l : List (String × PortfolioData))
    (hl : ∀ e ∈ l, (e.2.sharpe).isSome) (acc : String × PortfolioData) :
    List.foldlM findStep (mkState acc) l = Except.ok (mkState (bestAux acc l)) := by
  induction l generalizing acc with
  | nil => rfl
  | cons e l ih =>
      have he : (e.2.sharpe).isSome := hl e (List.mem_cons_self e l)
      obtain ⟨s, hs⟩ := Option.isSome_iff_exists.mp he
      have hscore : score e = s := by simp [score, hs]
      have hl' : ∀ x ∈ l, (x.2.sharpe).isSome := fun x hx => hl x (List.mem_cons_of_mem e hx)
      by_cases h : score acc < score e
      · have hstep : findStep (mkState acc) e = Except.ok (mkState e) := by
          rw [findStep]
          rw [show gtBest (score e) (mkState acc).bestSharpe = true from decide_eq_true h]
          rw [if_pos rfl, hs, mkState, hscore]
        rw [List.foldlM_cons, hstep, except_bind_ok, ih hl' e]
        rw [show bestAux acc (e :: l) = bestAux e l from by simp [bestAux, h]]
      · have hstep : findStep (mkState acc) e = Except.ok (mkState acc) := by
          rw [findStep]
          rw [show gtBest (score e) (mkState acc).bestSharpe = false from decide_eq_false h]
          simp
        rw [List.foldlM_cons, hstep, except_bind_ok, ih hl' acc]
        rw [show bestAux acc (e :: l) = bestAux acc l from by simp [bestAux, h]]

theorem find_best_portfolio_cons (e : String × PortfolioData)
    (l : List (String × PortfolioData)) (he : (e.2.sharpe).isSome)
    (hl : ∀ x ∈ l, (x.2.sharpe).isSome) :
    find_best_portfolio (e :: l) =
      Except.ok (some (bestAux e l).2, (bestAux e l).1, some (score (bestAux e l))) := by
  obtain ⟨s, hs⟩ := Option.isSome_iff_exists.mp he
  have hscore : score e = s := by simp [score, hs]
  have hstep : findStep ⟨none, none, none⟩ e = Except.ok (mkState e) := by
    rw [findStep]
    rw [show gtBest (score e) (FindState.mk none none none).bestSharpe = true from rfl]
    rw [if_pos rfl, hs, mkState, hscore]
  rw [find_best_portfolio]
  rw [List.foldlM_cons, hstep, except_bind_ok, foldlM_findStep l hl e, except_bind_ok]
  rfl

theorem bestAux_spec (l : List (String × PortfolioData)) (acc : String × PortfolioData) :
    (∀ e ∈ l, score e ≤ score (bestAux acc l)) ∧
      score acc ≤ score (bestAux acc l) ∧
      List.find? (fun e => decide (score e = score (bestAux acc l))) (acc :: l) =
        some (bestAux acc l) := by
  induction l generalizing acc with
  | nil =>
      refine ⟨by simp, le_refl _, ?_⟩
      simp [bestAux, List.find?]
  | cons e l ih =>
      by_cases h : score acc < score e
      · have hb : bestAux acc (e :: l) = bestAux e l := by simp [bestAux, h]
        obtain ⟨hall, hacc, hfind⟩ := ih e
        rw [hb]
        refine ⟨?_, le_of_lt (lt_of_lt_of_le h hacc), ?_⟩
        · intro x hx
          rcases List.mem_cons.mp hx with hx | hx
          · exact hx ▸ hacc
          · exact hall x hx
        · have hne : ¬ score acc = score (bestAux e l) := by
            exact ne_of_lt (lt_of_lt_of_le h hacc)
          simp only [List.find?]
          rw [decide_eq_false hne]
          exact hfind
      · have hb : bestAux acc (e :: l) = bestAux acc l := by simp [bestAux, h]
        obtain ⟨hall, hacc, hfind⟩ := ih acc
        have hel : score e ≤ score acc := le_of_not_lt h
        rw [hb]
        refine ⟨?_, hacc, ?_⟩
        · intro x hx
          rcases List.mem_cons.mp hx with hx | hx
          · exact hx ▸ le_trans hel hacc
          · exact hall x hx
        · by_cases hacc_eq : score acc = score (bestAux acc l)
          · have h1 : List.find? (fun x => decide (score x = score (bestAux acc l)))
                (acc :: l) = some acc := by
              simp only [List.find?]
              rw [decide_eq_true hacc_eq]
            have h2 : some acc = some (bestAux acc l) := by rw [← hfind, h1]
            simp only [List.find?]
            rw [decide_eq_true hacc_eq]
            exact h2
          · have he_ne : ¬ score e = score (bestAux acc l) := by
              intro heq
              exact hacc_eq (le_antisymm hacc (heq ▸ hel))
            have h1 : List.find? (fun x => decide (score x = score (bestAux acc l)))
                (acc :: l) = List.find? (fun x => decide (score x = score (bestAux acc l))) l := by
              simp only [List.find?]
              rw [decide_eq_false hacc_eq]
            simp only [List.find?]
            rw [decide_eq_false hacc_eq, decide_eq_false he_ne]
            rw [← h1, hfind]

/-- Full specification of a successful scan, shared by several claims below:
on a nonempty listing whose records all carry the scoring field, the scan
succeeds, returns and prints a pair attaining the maximum score, and that
pair is the first listed pair attaining the maximum. -/
theorem find_best_ok (files : List (String × PortfolioData)) (hne : files ≠ [])
    (hall : ∀ e ∈ files, (e.2.sharpe).isSome) :
    ∃ w, find_best_portfolio files = Except.ok (some w.2, w.1, some (score w)) ∧
      (∀ e ∈ files, score e ≤ score w) ∧
      List.find? (fun e => decide (score e = score w)) files = some w := by
  match files, hne with
  | e :: l, _ =>
      have he : (e.2.sharpe).isSome := hall e (List.mem_cons_self e l)
      have hl : ∀ x ∈ l, (x.2.sharpe).isSome := fun x hx => hall x (List.mem_cons_of_mem e hx)
      refine ⟨bestAux e l, find_best_portfolio_cons e l he hl, ?_, ?_⟩
      · intro x hx
        obtain ⟨hall', hacc, _⟩ := bestAux_spec l e
        rcases List.mem_cons.mp hx with hx | hx
        · exact hx ▸ hacc
        · exact hall' x hx
      · exact (bestAux_spec l e).2.2

/-- Three result files with scores 0.5, 1.2 and 0.9, the example of the spec. -/
def exFilesA : List (String × PortfolioData) :=
  [("optimal_portfolio_1.json", ⟨some (mkRat 1 2), none, none, none, []⟩),
   ("optimal_portfolio_2.json", ⟨some (mkRat 6 5), none, none, none, []⟩),
   ("optimal_portfolio_3.json", ⟨some (mkRat 9 10), none, none, none, []⟩)]

/-- Claim C1: with zero matching result files, find_best_portfolio does not
return None gracefully; the unconditional print of best_file raises
UnboundLocalError because the loop body never ran. The plotter itself does
handle an absent record, but the finder raises before returning. -/
theorem c1_zero_files_code_bug :
    find_best_portfolio [] = Except.error PyError.unboundLocal := rfl

/-- Claim C2: a result file lacking the scoring field is not scored as 0 when
it occupies a position where the default 0 beats the running maximum: the
update line indexes data[SharpeRatio] directly and raises KeyError. Here the
file is first, the running maximum is still -inf, and the scan raises. -/
theorem c2_missing_field_code_bug :
    find_best_portfolio [("optimal_portfolio_1.json", noScoreData)] =
      Except.error PyError.keyError := rfl

/-- Claim C3: on a nonempty listing whose records all carry the scoring field,
find_best_portfolio returns the record whose score is the maximum, the winner
is the first listed pair attaining the maximum (ties keep the first seen), and
the winning filename and score are printed. -/
theorem c3_find_best_portfolio_max (files : List (String × PortfolioData))
    (hne : files ≠ []) (hall : ∀ e ∈ files, (e.2.sharpe).isSome) :
    ∃ w, find_best_portfolio files = Except.ok (some w.2, w.1, some (score w)) ∧
      (∀ e ∈ files, score e ≤ score w) ∧
      List.find? (fun e => decide (score e = score w)) files = some w :=
  find_best_ok files hne hall

/-- Witness for C3 at the example of the spec: among scores 0.5, 1.2, 0.9 the
scan selects the record with 1.2 and prints its filename and score. -/
theorem c3_max_witness :
    (∃ w, find_best_portfolio exFilesA = Except.ok (some w.2, w.1, some (score w)) ∧
      (∀ e ∈ exFilesA, score e ≤ score w) ∧
      List.find? (fun e => decide (score e = score w)) exFilesA = some w) ∧
    find_best_portfolio exFilesA =
      Except.ok (some ⟨some (mkRat 6 5), none, none, none, []⟩,
        "optimal_portfolio_2.json", some (mkRat 6 5)) :=
  ⟨c3_find_best_portfolio_max exFilesA (by decide) (by decide), by decide⟩

/-- One row of benchmarks.log: a TimeMs value and an ExecutionMode label. -/
structure BenchRow where
  timeMs : Rat
  execMode : String
  deriving DecidableEq, Repr

/-- The TimeSec column: TimeMs converted to seconds. -/
def timeSec (r : BenchRow) : Rat :=
  r.timeMs / 1000

/-- The filter keeping only rows whose ExecutionMode is parallel or
sequential, as produced by the isin restriction. -/
def qualifying (rows : List BenchRow) : List BenchRow :=
  rows.filter (fun r => r.execMode == "parallel" || r.execMode == "sequential")

/-- Whether the groupby summary has an index entry for a mode: true exactly
when some qualifying row carries that label. -/
def hasMode (rows : List BenchRow) (m : String) : Bool :=
  (qualifying rows).any (fun r => r.execMode == m)

/-- The TimeSec values of the qualifying rows of one mode, the group the
summary aggregates. -/
def modeTimes (rows : List BenchRow) (m : String) : List Rat :=
  ((qualifying rows).filter (fun r => r.execMode == m)).map timeSec

/-- Arithmetic mean of a list of rationals. -/
def mean (l : List Rat) : Rat :=
  l.sum / l.length

/-- The lookup summary.loc[m, mean]: the grouped mean when the mode occurs,
none modelling the KeyError .loc raises when the mode has no rows. -/
def locMean (rows : List BenchRow) (m : String) : Option Rat :=
  if hasMode rows m then some (mean (modeTimes rows m)) else none

/-- Result of analyze_execution_times: one of the two early-return
diagnostics, or the completed analysis carrying the per-mode mean prints and
the optional speedup print. -/
inductive BenchReport where
  | missingFile
  | insufficientData (found : Nat)
  | report (parMean seqMean : Rat) (speedup : Option Rat)
  deriving DecidableEq, Repr

/-- analyze_execution_times, the log file modelled as none when absent and as
the parsed row list otherwise. After the two guards, the minutes summary
indexes summary.loc[parallel] and summary.loc[sequential] unconditionally,
raising KeyError when either mode is absent; the speedup print itself sits
under the guard requiring both modes in the summary index. -/
def analyze_execution_times (log : Option (List BenchRow)) : Except PyError BenchReport :=
  match log with
  | none => Except.ok BenchReport.missingFile
  | some rows =>
      if (qualifying rows).length < 5 then
        Except.ok (BenchReport.insufficientData (qualifying rows).length)
      else
        match locMean rows "parallel", locMean rows "sequential" with
        | some pm, some sm =>
            Except.ok (BenchReport.report pm sm
              (if hasMode rows "sequential" && hasMode rows "parallel"
                then some (sm / pm) else none))
        | _, _ => Except.error PyError.keyError

/-- Claim C4: with both mode labels present among at least five qualifying
rows, the analysis completes and the printed speedup is the mean of the
sequential TimeSec values divided by the mean of the parallel ones. -/
theorem c4_speedup_mean_ratio (rows : List BenchRow)
    (h5 : 5 ≤ (qualifying rows).length)
    (hp : hasMode rows "parallel" = true) (hs : hasMode rows "sequential" = true) :
    analyze_execution_times (some rows) =
      Except.ok (BenchReport.report (mean (modeTimes rows "parallel"))
        (mean (modeTimes rows "sequential"))
        (some (mean (modeTimes rows "sequential") / mean (modeTimes rows "parallel")))) := by
  have hlt : ¬ (qualifying rows).length < 5 := Nat.not_lt.mpr h5
  simp [analyze_execution_times, locMean, hp, hs, hlt]

/-- A benchmark log with parallel mean 100 s and sequential mean 250 s. -/
def rows100 : List BenchRow :=
  [⟨100000, "parallel"⟩, ⟨100000, "parallel"⟩, ⟨100000, "parallel"⟩,
   ⟨250000, "sequential"⟩, ⟨250000, "sequential"⟩]

/-- Witness for C4 at the example of the spec: parallel mean 100 s and
sequential mean 250 s give speedup 2.5. -/
theorem c4_speedup_witness :
    analyze_execution_times (some rows100) =
      Except.ok (BenchReport.report 100 250 (some (5/2))) := by
  rw [c4_speedup_mean_ratio rows100 (by decide) (by decide) (by decide)]
  have hpm : mean (modeTimes rows100 "parallel") = 100 := by
    have hf : (qualifying rows100).filter (fun r => r.execMode == "parallel") =
        [⟨100000, "parallel"⟩, ⟨100000, "parallel"⟩, ⟨100000, "parallel"⟩] := by decide
    simp only [modeTimes, hf, List.map, timeSec, mean]
    norm_num
  have hsm : mean (modeTimes rows100 "sequential") = 250 := by
    have hf : (qualifying rows100).filter (fun r => r.execMode == "sequential") =
        [⟨250000, "sequential"⟩, ⟨250000, "sequential"⟩] := by decide
    simp only [modeTimes, hf, List.map, timeSec, mean]
    norm_num
  rw [hpm, hsm]
  norm_num

/-- Claim C6: analyze_execution_times takes the missing-file early return
exactly when the log is absent, and the insufficient-data early return,
reporting the number of qualifying rows found, exactly when fewer than five
rows qualify; both early returns carry no aggregation or rendering. -/
theorem c6_early_return_cases (log : Option (List BenchRow)) :
    (analyze_execution_times log = Except.ok BenchReport.missingFile ↔ log = none) ∧
    ∀ rows, log = some rows →
      (analyze_execution_times log =
          Except.ok (BenchReport.insufficientData (qualifying rows).length) ↔
        (qualifying rows).length < 5) := by
  constructor
  · cases log with
    | none => simp [analyze_execution_times]
    | some rows =>
        simp only [analyze_execution_times]
        by_cases h : (qualifying rows).length < 5
        · simp [h]
        · simp only [if_neg h]
          cases hp : locMean rows "parallel" <;> cases hs : locMean rows "sequential" <;>
            simp [hp, hs]
  · rintro rows rfl
    simp only [analyze_execution_times]
    by_cases h : (qualifying rows).length < 5
    · simp [h]
    · simp only [if_neg h]
      constructor
      · intro hc
        cases hp : locMean rows "parallel" <;> cases hs : locMean rows "sequential" <;>
          simp [hp, hs] at hc
      · intro hc
        exact absurd hc h

/-- A benchmark log with only three qualifying rows. -/
def rows3 : List BenchRow :=
  [⟨1000, "parallel"⟩, ⟨2000, "parallel"⟩, ⟨3000, "sequential"⟩]

/-- Witness for C6 at the example of the spec: three qualifying rows make the
analyzer print the insufficient-data diagnostic reporting the count 3. -/
theorem c6_early_return_witness :
    analyze_execution_times (some rows3) =
      Except.ok (BenchReport.insufficientData (qualifying rows3).length) :=
  ((c6_early_return_cases (some rows3)).2 rows3 rfl).mpr (by decide)

/-- Claim C9: with at least five qualifying rows, the analysis raises
KeyError exactly when the two mode labels are not both present, since the
minutes summary indexes both groups unconditionally; completion without an
unhandled error therefore requires both labels even though the speedup
computation is guarded. -/
theorem c9_single_mode_keyerror (rows : List BenchRow)
    (h5 : 5 ≤ (qualifying rows).length) :
    analyze_execution_times (some rows) = Except.error PyError.keyError ↔
      ¬(hasMode rows "parallel" = true ∧ hasMode rows "sequential" = true) := by
  have hlt : ¬ (qualifying rows).length < 5 := Nat.not_lt.mpr h5
  simp only [analyze_execution_times, if_neg hlt]
  cases hp : hasMode rows "parallel" <;> cases hs : hasMode rows "sequential" <;>
    simp [locMean, hp, hs]

/-- A benchmark log with five qualifying rows, all of them parallel. -/
def par5 : List BenchRow :=
  [⟨1000, "parallel"⟩, ⟨1000, "parallel"⟩, ⟨1000, "parallel"⟩,
   ⟨1000, "parallel"⟩, ⟨1000, "parallel"⟩]

/-- Witness for C9: five qualifying rows all labelled parallel reach the
minutes summary and raise KeyError on the absent sequential group. -/
theorem c9_single_mode_witness :
    analyze_execution_times (some par5) = Except.error PyError.keyError :=
  (c9_single_mode_keyerror par5 (by decide)).mpr (by decide)

/-- Descending order on stock rows: a precedes b when the weight of b does
not exceed the weight of a. -/
abbrev wge (a b : Stock) : Prop := b.weight ≤ a.weight

instance : IsTotal Stock wge :=
  ⟨fun a b => le_total b.weight a.weight⟩

instance : IsTrans Stock wge :=
  ⟨fun _ _ _ hab hbc => le_trans hbc hab⟩

/-- The percentage conversion applied to the Weight column: every weight
multiplied by 100. -/
def scaledStocks (stocks : List Stock) : List Stock :=
  stocks.map (fun s => ⟨s.ticker, s.weight * 100⟩)

/-- The stock rows after the scaling and the descending sort_values, the
sort modelled by a sorting function for the descending order (no claim
depends on how equal weights are arranged). -/
def sortedStocks (stocks : List Stock) : List Stock :=
  List.insertionSort wge (scaledStocks stocks)

/-- The bars that receive a percentage label: exactly the rows whose scaled
weight is at least 5. -/
def labeled (stocks : List Stock) : List Stock :=
  (sortedStocks stocks).filter (fun s => decide (5 ≤ s.weight))

/-- The rows printed by the top-5 text summary: df.head(5). -/
def top5 (stocks : List Stock) : List Stock :=
  (sortedStocks stocks).take 5

/-- Result of plot_best_portfolio: the no-data message, or the rendered chart
with its title score, its labelled bars, the saved filename and the printed
top rows. -/
inductive PlotOutcome where
  | noData
  | plotted (titleScore : Rat) (labels : List Stock) (savedFile : String) (top : List Stock)
  deriving DecidableEq, Repr

/-- plot_best_portfolio: prints the no-data message and returns when the
record is absent; otherwise scales and sorts the stock rows, labels the bars
of at least 5 percent, titles the chart with the scoring metric read by a
bare subscript (KeyError when the key is absent), saves one fixed file and
prints the first five rows of the sorted frame. -/
def plot_best_portfolio (portfolio : Option PortfolioData) : Except PyError PlotOutcome :=
  match portfolio with
  | none => Except.ok PlotOutcome.noData
  | some p =>
      match p.sharpe with
      | none => Except.error PyError.keyError
      | some sr =>
          Except.ok (PlotOutcome.plotted sr (labeled p.stocks)
            "best_portfolio_weights.png" (top5 p.stocks))

theorem sum_scaled (l : List Stock) :
    ((scaledStocks l).map Stock.weight).sum = (l.map Stock.weight).sum * 100 := by
  induction l with
  | nil => simp [scaledStocks]
  | cons s l ih =>
      simp only [scaledStocks, List.map_cons, List.sum_cons] at *
      rw [ih]
      ring

/-- Claim C5: when the weight fractions sum to 1, the scaled percentages of
the sorted frame sum to 100, and the rows are sorted descending by weight. -/
theorem c5_weights_scaled_sorted (stocks : List Stock)
    (h : (stocks.map Stock.weight).sum = 1) :
    ((sortedStocks stocks).map Stock.weight).sum = 100 ∧
      List.Sorted wge (sortedStocks stocks) := by
  constructor
  · have hperm : (sortedStocks stocks).Perm (scaledStocks stocks) :=
      List.perm_insertionSort wge (scaledStocks stocks)
    rw [(hperm.map Stock.weight).sum_eq, sum_scaled, h, one_mul]
  · exact List.sorted_insertionSort wge (scaledStocks stocks)

/-- The single-record example of the spec: weights 0.6, 0.25, 0.15. -/
def exStocks : List Stock :=
  [⟨"AAA", 0.6⟩, ⟨"BBB", 0.25⟩, ⟨"CCC", 0.15⟩]

/-- Witness for C5 at the example of the spec: weights 0.6, 0.25 and 0.15
scale to percentages summing to 100 and sort descending as 60, 25, 15. -/
theorem c5_weights_witness :
    (((sortedStocks exStocks).map Stock.weight).sum = 100 ∧
      List.Sorted wge (sortedStocks exStocks)) ∧
    (sortedStocks exStocks).map Stock.weight = [60, 25, 15] := by
  have h1 : scaledStocks exStocks = [⟨"AAA", 60⟩, ⟨"BBB", 25⟩, ⟨"CCC", 15⟩] := by
    simp only [scaledStocks, exStocks, List.map]
    norm_num
  have h2 : sortedStocks exStocks = [⟨"AAA", 60⟩, ⟨"BBB", 25⟩, ⟨"CCC", 15⟩] := by
    unfold sortedStocks
    rw [h1]
    decide
  refine ⟨c5_weights_scaled_sorted exStocks ?_, ?_⟩
  · simp only [exStocks, List.map, List.sum_cons, List.sum_nil]
    norm_num
  · rw [h2]
    decide

/-- Claim C7: on a record whose scoring field is present, the plot succeeds,
a bar is labelled exactly when its percentage weight is at least 5, and the
printed rows are exactly the first five of the descending-sorted frame, so
every printed row weighs at least as much as every row not printed. -/
theorem c7_labels_and_top5 (p : PortfolioData) (sr : Rat) (h : p.sharpe = some sr) :
    plot_best_portfolio (some p) =
      Except.ok (PlotOutcome.plotted sr (labeled p.stocks)
        "best_portfolio_weights.png" (top5 p.stocks)) ∧
    (∀ s, s ∈ labeled p.stocks ↔ s ∈ sortedStocks p.stocks ∧ 5 ≤ s.weight) ∧
    top5 p.stocks = (sortedStocks p.stocks).take 5 ∧
    ∀ a ∈ top5 p.stocks, ∀ b ∈ (sortedStocks p.stocks).drop 5, wge a b := by
  refine ⟨by simp [plot_best_portfolio, h], ?_, rfl, ?_⟩
  · intro s
    simp [labeled, List.mem_filter]
  · intro a ha b hb
    have hsorted : List.Sorted wge (sortedStocks p.stocks) :=
      List.sorted_insertionSort wge (scaledStocks p.stocks)
    have hsplit := List.take_append_drop 5 (sortedStocks p.stocks)
    have hpw : List.Pairwise wge
        ((sortedStocks p.stocks).take 5 ++ (sortedStocks p.stocks).drop 5) := by
      rw [hsplit]
      exact hsorted
    exact (List.pairwise_append.mp hpw).2.2 a (by simpa [top5] using ha) b hb

/-- A record with score 2 and two stocks, for the C7 witness. -/
def exPortfolio : PortfolioData :=
  ⟨some 2, none, none, none, [⟨"AAA", mkRat 3 5⟩, ⟨"BBB", mkRat 2 5⟩]⟩

/-- Witness for C7: a record carrying score 2 plots with the labelled bars
and the printed top rows of its sorted frame. -/
theorem c7_labels_witness :
    plot_best_portfolio (some exPortfolio) =
      Except.ok (PlotOutcome.plotted 2 (labeled exPortfolio.stocks)
        "best_portfolio_weights.png" (top5 exPortfolio.stocks)) :=
  (c7_labels_and_top5 exPortfolio 2 rfl).1

/-- One row of the variation DataFrame, built from one result file. -/
structure VariationRow where
  execMode : String
  sharpe : Rat
  timeMs : Rat
  timestamp : String
  deriving DecidableEq, Repr

/-- The row built from one record: mode defaults to unknown, score to 0,
elapsed time to 0, timestamp to the empty string. -/
def mkRow (p : PortfolioData) : VariationRow :=
  ⟨p.execMode.getD "unknown", p.sharpe.getD 0, p.timeElapsedMs.getD 0, p.timestamp.getD ""⟩

/-- The distinct execution modes of the rows; the enumeration order of the
groupby keys is immaterial to every claim. -/
def rowModes (rows : List VariationRow) : List String :=
  (rows.map VariationRow.execMode).dedup

/-- The grouped summary the analyzer prints: for each mode, the scoring
values of its rows, from which count, mean, std, min and max are printed. -/
def groupStats (rows : List VariationRow) : List (String × List Rat) :=
  (rowModes rows).map
    (fun m => (m, (rows.filter (fun r => r.execMode == m)).map VariationRow.sharpe))

/-- Result of analyze_portfolio_variations: the no-data message, or the box
plot and the printed grouped statistics over the built rows. -/
inductive VariationOutcome where
  | noData
  | stats (rows : List VariationRow) (grouped : List (String × List Rat))
  deriving DecidableEq, Repr

/-- analyze_portfolio_variations: builds one row per matching file, prints
the no-data message when the listing is empty, otherwise renders the box
plot and prints the grouped statistics of the scoring metric. -/
def analyze_portfolio_variations (files : List PortfolioData) : VariationOutcome :=
  let data := files.map mkRow
  if data.isEmpty then VariationOutcome.noData
  else VariationOutcome.stats data (groupStats data)

/-- Claim C8: the variation analyzer is a no-op with a message exactly when
no files match; otherwise it builds exactly one row per file, each row
holding the execution mode, score, elapsed time and timestamp with the
documented defaults, and prints the per-mode grouped statistics. -/
theorem c8_variations (files : List PortfolioData) :
    (analyze_portfolio_variations files = VariationOutcome.noData ↔ files = []) ∧
    (files ≠ [] →
      analyze_portfolio_variations files =
        VariationOutcome.stats (files.map mkRow) (groupStats (files.map mkRow))) ∧
    (files.map mkRow).length = files.length ∧
    ∀ p, mkRow p =
      ⟨p.execMode.getD "unknown", p.sharpe.getD 0,
        p.timeElapsedMs.getD 0, p.timestamp.getD ""⟩ := by
  refine ⟨?_, ?_, List.length_map files mkRow, fun p => rfl⟩
  · cases files with
    | nil => simp [analyze_portfolio_variations]
    | cons p l => simp [analyze_portfolio_variations]
  · intro hne
    cases files with
    | nil => exact absurd rfl hne
    | cons p l => simp [analyze_portfolio_variations]

/-- Witness for C8: an empty listing prints the no-data message, and a single
record with every optional field absent yields exactly one fully defaulted
row with its grouped statistics. -/
theorem c8_variations_witness :
    analyze_portfolio_variations [] = VariationOutcome.noData ∧
    analyze_portfolio_variations [noScoreData] =
      VariationOutcome.stats [⟨"unknown", 0, 0, ""⟩] (groupStats [⟨"unknown", 0, 0, ""⟩]) := by
  constructor
  · exact (c8_variations []).1.mpr rfl
  · exact (c8_variations [noScoreData]).2.1 (by simp)

/-- The whole pipeline of main as a function of the enumerated result files
and the benchmark log: the finder, the plot of its winner, the benchmark
analysis and the variation analysis in sequence, any raised error
terminating the run. The carried values model the console statistics. -/
def mainModel (files : List (String × PortfolioData)) (log : Option (List BenchRow)) :
    Except PyError ((String × Option Rat) × PlotOutcome × BenchReport × VariationOutcome) := do
  let r ← find_best_portfolio files
  let plot ← plot_best_portfolio r.1
  let bench ← analyze_execution_times log
  let var := analyze_portfolio_variations (files.map Prod.snd)
  Except.ok ((r.2.1, r.2.2), plot, bench, var)

/-- Two result files whose records tie at the maximum score. -/
def tieA : String × PortfolioData :=
  ("optimal_portfolio_a.json", ⟨some 1, none, none, none, []⟩)

/-- The second of the two tied result files. -/
def tieB : String × PortfolioData :=
  ("optimal_portfolio_b.json", ⟨some 1, none, none, none, []⟩)

/-- Counterexample for C10: the pipeline output is not a function of the
unchanged set of input files alone. The same two tied files enumerated in the
two possible directory orders give different console statistics, because the
printed winner filename follows the enumeration order of the unordered glob
listing. -/
theorem c10_counterexample :
    List.Perm [tieA, tieB] [tieB, tieA] ∧
      mainModel [tieA, tieB] none ≠ mainModel [tieB, tieA] none :=
  ⟨List.Perm.swap tieB tieA [], by decide⟩

/-- Claim C10 (amended): two runs of the pipeline on unchanged input files
produce byte-identical console statistics provided both runs enumerate the
result files in the same order and read the same benchmark log: the pipeline
reads nothing else, so its output is a deterministic function of the
enumerated inputs. -/
theorem c10_order_determinism
    (files₁ files₂ : List (String × PortfolioData)) (log₁ log₂ : Option (List BenchRow))
    (hf : files₁ = files₂) (hl : log₁ = log₂) :
    mainModel files₁ log₁ = mainModel files₂ log₂ := by
  rw [hf, hl]

/-- Witness for the amended C10: two runs enumerating the same two files in
the same order, with the log absent in both, produce identical output. -/
theorem c10_order_witness :
    mainModel [tieA, tieB] none = mainModel [tieA, tieB] none :=
  c10_order_determinism [tieA, tieB] [tieA, tieB] none none rfl rfl
